import Mathlib

/-!
Verification of the OpenSky flight-maps pipeline.

The repository has two scripts:
* `get_data.py` — the ingestion pipeline: fetches a snapshot of aircraft
  state vectors, renames columns through a fixed alias table, drops rows
  missing latitude/longitude, stamps one shared `updated_at_utc` wall-clock
  value onto every surviving row, selects the canonical column list, trims
  callsign whitespace, casts `position_source`, and appends the batch to
  the `flights.main.flight_data` table.
* `app.py` — the dashboard: a `load_data` function (wrapped in a 60-second
  TTL cache) that selects every row whose `updated_at_utc` equals the
  global maximum of the table, post-load column cleaning, and a raw-data
  expander that drops a column named `rn`.

DataFrames are embedded as a column-name list together with rows given as
association lists from column name to optional cell value (`none` models
NaN/NULL).  All definitions are executable.
-/

/-- A cell value of a DataFrame / database column. -/
inductive Val where
  | str (s : String)
  | num (n : Int)
  | boolv (b : Bool)
  | time (t : Nat)
deriving DecidableEq, Repr

/-- One DataFrame row: an association list from column name to optional
cell value (`none` is NaN/NULL). -/
abbrev Row := List (String × Option Val)

/-- A pandas DataFrame: its column labels and its rows. -/
structure DF where
  cols : List String
  rows : List Row
deriving DecidableEq, Repr

/-- Cell lookup in a row; a missing key reads as NaN (`none`). -/
def cell (r : Row) (c : String) : Option Val :=
  match r.find? (fun p => p.1 == c) with
  | some p => p.2
  | none => none

/-- Well-formedness of a DataFrame: each row carries exactly the frame's
column labels, in order (always true of a real pandas DataFrame). -/
def WF (df : DF) : Prop := ∀ r ∈ df.rows, r.map Prod.fst = df.cols

/-- The `rename_map` of `get_data.py` step 3, as the column-label function
pandas `DataFrame.rename` applies: aliased upstream names are replaced,
all other labels are untouched. -/
def ren (s : String) : String :=
  if s = "timestamp" then "timestamp_utc"
  else if s = "onground" then "on_ground"
  else if s = "groundspeed" then "velocity"
  else if s = "track" then "track_heading"
  else if s = "baro_altitude" then "altitude"
  else if s = "geoaltitude" then "geo_altitude"
  else s

/-- Pandas `df.rename(columns=rename_map)` on one row: keys are renamed, values kept. -/
def renameRow (r : Row) : Row := r.map (fun p => (ren p.1, p.2))

/-- Source line `df = df.rename(columns=rename_map)` (get_data.py line 30). -/
def renameDF (df : DF) : DF := ⟨df.cols.map ren, df.rows.map renameRow⟩

/-- Validity test of `df.dropna(subset=['latitude','longitude'])`:
the row survives iff both coordinates are non-null. -/
def rowValid (r : Row) : Bool :=
  (cell r "latitude").isSome && (cell r "longitude").isSome

/-- Source line `df = df.dropna(subset=['latitude', 'longitude'])` (get_data.py line 33). -/
def dropnaDF (df : DF) : DF := ⟨df.cols, df.rows.filter rowValid⟩

/-- Assignment `df['updated_at_utc'] = v` on one row: overwrite the key if present,
otherwise append the new column at the end. -/
def setCell (r : Row) (c : String) (v : Option Val) : Row :=
  if r.any (fun p => p.1 == c) then
    r.map (fun p => if p.1 == c then (p.1, v) else p)
  else r ++ [(c, v)]

/-- Source line `df['updated_at_utc'] = datetime.now(timezone.utc)` (get_data.py line 40):
one wall-clock instant `t`, assigned to every row of the batch. -/
def stampDF (t : Nat) (df : DF) : DF :=
  ⟨if df.cols.contains "updated_at_utc" then df.cols
   else df.cols ++ ["updated_at_utc"],
   df.rows.map (fun r => setCell r "updated_at_utc" (some (Val.time t)))⟩

/-- The `columns_to_keep` list (get_data.py lines 45-51): the 17 canonical columns. -/
def columns_to_keep : List String :=
  ["icao24", "callsign", "origin_country", "last_position",
   "timestamp_utc", "longitude", "latitude", "altitude",
   "on_ground", "velocity", "track_heading", "vertical_rate",
   "geo_altitude", "squawk", "spi", "position_source",
   "updated_at_utc"]

/-- Selection `df[final_columns]` on one row: the row restricted to (and reordered
by) the kept column labels. -/
def selectRow (keep : List String) (r : Row) : Row :=
  keep.map (fun c => (c, cell r c))

/-- Source line `final_columns = [col for col in columns_to_keep if col in df.columns]`
followed by `df_final = df[final_columns].copy()` (get_data.py lines 54-57). -/
def selectDF (df : DF) : DF :=
  let keep := columns_to_keep.filter (fun c => df.cols.contains c)
  ⟨keep, df.rows.map (selectRow keep)⟩

/-- Python `str.strip()` on the underlying character list: remove leading
and trailing whitespace. -/
def stripChars (l : List Char) : List Char :=
  ((l.dropWhile Char.isWhitespace).reverse.dropWhile Char.isWhitespace).reverse

/-- Python `str.strip()`. -/
def pyStrip (s : String) : String := ⟨stripChars s.data⟩

/-- pandas `.str.strip()` on one cell: strings are stripped, NaN stays NaN,
non-string values become NaN. -/
def stripCell : Option Val → Option Val
  | some (Val.str s) => some (Val.str (pyStrip s))
  | _ => none

/-- Source line `df_final['callsign'] = df_final['callsign'].str.strip()` on one row. -/
def stripRow (r : Row) : Row :=
  r.map (fun p => if p.1 == "callsign" then (p.1, stripCell p.2) else p)

/-- Source lines `if 'callsign' in df_final.columns: df_final['callsign'] =
df_final['callsign'].str.strip()` (get_data.py lines 60-61). -/
def stripDF (df : DF) : DF :=
  if df.cols.contains "callsign" then ⟨df.cols, df.rows.map stripRow⟩ else df

/-- Cast `astype('Int64')` on one cell: integers pass through, NaN stays NA. -/
def int64Cell : Option Val → Option Val
  | some (Val.num n) => some (Val.num n)
  | _ => none

/-- Source line `df_final['position_source'] = df_final['position_source'].astype('Int64')`
on one row. -/
def castRow (r : Row) : Row :=
  r.map (fun p => if p.1 == "position_source" then (p.1, int64Cell p.2) else p)

/-- Source lines `if 'position_source' in df_final.columns: ...astype('Int64')`
(get_data.py lines 68-69). -/
def castDF (df : DF) : DF :=
  if df.cols.contains "position_source" then ⟨df.cols, df.rows.map castRow⟩
  else df

/-- The Normalizer: the pure transform of the ingestion script — column
renaming through the alias table, dropping rows missing latitude or
longitude, canonical column selection, and callsign whitespace trimming —
in the script's order, without the ingestion-time stamp. -/
def normalizeDF (df : DF) : DF := stripDF (selectDF (dropnaDF (renameDF df)))

/-- The full per-run batch preparation of `get_data.py` (steps 3-6): rename,
drop invalid positions, stamp the shared `updated_at_utc` value `t`, select
the canonical columns, strip callsigns, cast `position_source`. -/
def pipelineBatch (raw : DF) (t : Nat) : DF :=
  castDF (stripDF (selectDF (stampDF t (dropnaDF (renameDF raw)))))

/-- One ingestion run of `get_data.py`.  `fetchResult = none` models the
fetch raising (feed unreachable / malformed payload), which lands in the
script's `except` block: the run exits without writing and without
retrying.  An empty snapshot, an empty post-filter frame, or a missing
MotherDuck token also exit before the single batch `INSERT`.  Returns the
store after the run and the number of rows written. -/
def ingest (fetchResult : Option DF) (token : Option String) (t : Nat)
    (store : List Row) : List Row × Nat :=
  match fetchResult with
  | none => (store, 0)
  | some raw =>
    if raw.rows.isEmpty then (store, 0)
    else
      let df1 := dropnaDF (renameDF raw)
      if df1.rows.isEmpty then (store, 0)
      else
        match token with
        | none => (store, 0)
        | some _ =>
          let batch := castDF (stripDF (selectDF (stampDF t df1)))
          (store ++ batch.rows, batch.rows.length)

/-! ## The query layer (`app.py`) -/

/-- One stored row of `flights.main.flight_data` as the resolver reads it:
the entity key and the ingestion timestamp (the only columns the
latest-state SQL touches). -/
structure FlightRow where
  icao24 : String
  updated_at_utc : Nat
deriving DecidableEq, Repr

/-- Query `SELECT max(updated_at_utc) FROM flights.main.flight_data`: SQL `max`
over the store, `NULL` (`none`) on an empty table. -/
def maxTs : List FlightRow → Option Nat
  | [] => none
  | r :: rest =>
    match maxTs rest with
    | none => some r.updated_at_utc
    | some m => some (max r.updated_at_utc m)

/-- Function `load_data` (app.py lines 22-36), success path: the SQL query
`select * from flight_data where updated_at_utc = (select max(updated_at_utc)
from flight_data)` — a `NULL` subquery result matches no row — paired with
the watermark `max(updated_at_utc)` (`none` on an empty store). -/
def load_data (store : List FlightRow) : List FlightRow × Option Nat :=
  match maxTs store with
  | none => ([], none)
  | some m => (store.filter (fun r => r.updated_at_utc == m), some m)

/-- A view returned to the dashboard: the selected rows and the freshness
watermark. -/
abbrev ViewT := List FlightRow × Option Nat

/-- The body of `load_data` including its `except` branch (app.py lines
38-40): `conn = none` models a `duckdb.Error`/`TypeError`/`KeyError`
during recompute, on which the function shows a diagnostic and returns
`(pd.DataFrame(), None)` — an empty view with a null watermark. -/
def load_data_try (conn : Option (List FlightRow)) : ViewT :=
  match conn with
  | some store => load_data store
  | none => ([], none)

/-- Modelled from the spec: the `@st.cache_data(ttl=60)` wrapper around
`load_data` (app.py line 15).  The cache machinery itself lives in the
streamlit library, not in this repository; per the spec the single cached
entry expires a fixed 60 time-units after the moment it was populated (not
after last access), and on expiry or first call the value is recomputed
synchronously and replaces the entry.  Input: the cached entry (value and
population time), the current time, and the backing connection; output:
the returned view and the cache entry afterwards. -/
def get_snapshot (cache : Option (ViewT × Nat)) (now : Nat)
    (conn : Option (List FlightRow)) : ViewT × Option (ViewT × Nat) :=
  match cache with
  | some (v, t0) =>
    if now - t0 < 60 then (v, some (v, t0))
    else
      let v2 := load_data_try conn
      (v2, some (v2, now))
  | none =>
    let v2 := load_data_try conn
    (v2, some (v2, now))

/-- Cast `astype(str)` on one cell: every value is stringified and is therefore
non-null afterwards; in particular Python renders a NULL (`None`) as the
string `"None"`. -/
def astypeStrCell : Option Val → Val
  | none => Val.str "None"
  | some (Val.str s) => Val.str s
  | some (Val.num n) => Val.str (toString n)
  | some (Val.boolv b) => Val.str (toString b)
  | some (Val.time t) => Val.str (toString t)

/-- pandas `fillna(d)` on one cell. -/
def fillnaCell (d : Val) : Option Val → Val
  | none => d
  | some v => v

/-- Source line `df['origin_country'] = df['origin_country'].astype(str).fillna('Unknown')`
(app.py line 68) on one cell: stringify first, then fill nulls. -/
def originCountryClean (x : Option Val) : Val :=
  fillnaCell (Val.str "Unknown") (some (astypeStrCell x))

/-- The column list of the `CREATE TABLE IF NOT EXISTS
flights.main.flight_data` statement (get_data.py lines 85-105). -/
def tableSchemaCols : List String :=
  ["icao24", "callsign", "origin_country", "last_position",
   "timestamp_utc", "longitude", "latitude", "altitude",
   "on_ground", "velocity", "track_heading", "vertical_rate",
   "geo_altitude", "squawk", "spi", "position_source",
   "updated_at_utc"]

/-- pandas `df.drop(columns=cs)` with the default `errors='raise'`: raises
`KeyError` unless every listed label is a column of the frame. -/
def dropColumns (cs : List String) (df : DF) : Except String DF :=
  if cs.all (fun c => df.cols.contains c) then
    Except.ok ⟨df.cols.filter (fun c => !(cs.contains c)),
               df.rows.map (fun r => r.filter (fun p => !(cs.contains p.1)))⟩
  else Except.error "KeyError"

/-! ## Basic cell lemmas -/

theorem cell_nil (c : String) : cell [] c = none := rfl

theorem cell_cons (p : String × Option Val) (r : Row) (c : String) :
    cell (p :: r) c = if p.1 == c then p.2 else cell r c := by
  unfold cell
  rw [List.find?_cons]
  cases h : (p.1 == c) <;> simp [h]

theorem cell_selectRow (keep : List String) (r : Row) (c : String) :
    cell (selectRow keep r) c = if keep.contains c then cell r c else none := by
  induction keep with
  | nil => rfl
  | cons k ks ih =>
    simp only [selectRow, List.map_cons] at *
    rw [cell_cons]
    cases h : (k == c) with
    | true =>
      have hk : k = c := by simpa using h
      simp [h, List.contains_cons, hk]
    | false =>
      have hk : ¬(c = k) := by
        intro hh
        rw [hh] at h
        simp at h
      simp only [h, if_false, ih, List.contains_cons]
      simp [h, hk]

theorem cell_map_keyfun (g : String → Option Val → Option Val) (r : Row) (c : String) :
    cell (r.map (fun p => (p.1, g p.1 p.2))) c =
      match r.find? (fun p => p.1 == c) with
      | some p => g c p.2
      | none => none := by
  induction r with
  | nil => rfl
  | cons p r ih =>
    simp only [List.map_cons]
    rw [cell_cons, List.find?_cons]
    cases h : (p.1 == c) with
    | true =>
      have hp : p.1 = c := by simpa using h
      simp [h, hp]
    | false => simpa [h] using ih

theorem stripRow_eq_keyfun (r : Row) :
    stripRow r = r.map (fun p =>
      (p.1, if p.1 == "callsign" then stripCell p.2 else p.2)) := by
  unfold stripRow
  induction r with
  | nil => rfl
  | cons p r ih =>
    simp only [List.map_cons, ih]
    cases h : (p.1 == "callsign") <;> simp [h]

theorem castRow_eq_keyfun (r : Row) :
    castRow r = r.map (fun p =>
      (p.1, if p.1 == "position_source" then int64Cell p.2 else p.2)) := by
  unfold castRow
  induction r with
  | nil => rfl
  | cons p r ih =>
    simp only [List.map_cons, ih]
    cases h : (p.1 == "position_source") <;> simp [h]

theorem cell_stripRow (r : Row) (c : String) :
    cell (stripRow r) c =
      if c == "callsign" then stripCell (cell r c) else cell r c := by
  rw [stripRow_eq_keyfun,
    cell_map_keyfun (fun k v => if k == "callsign" then stripCell v else v)]
  unfold cell
  cases hf : r.find? (fun p => p.1 == c) <;> cases h : (c == "callsign") <;>
    simp [h, stripCell]

theorem cell_castRow (r : Row) (c : String) :
    cell (castRow r) c =
      if c == "position_source" then int64Cell (cell r c) else cell r c := by
  rw [castRow_eq_keyfun,
    cell_map_keyfun (fun k v => if k == "position_source" then int64Cell v else v)]
  unfold cell
  cases hf : r.find? (fun p => p.1 == c) <;> cases h : (c == "position_source") <;>
    simp [h, int64Cell]

theorem cell_setCell_self (r : Row) (c : String) (v : Option Val) :
    cell (setCell r c v) c = v := by
  unfold setCell
  cases h : r.any (fun p => p.1 == c) with
  | true =>
    simp only [if_true]
    have heq : (r.map (fun p => if p.1 == c then (p.1, v) else p)) =
        r.map (fun p => (p.1, if p.1 == c then v else p.2)) := by
      apply List.map_congr_left
      intro p _
      cases hp : (p.1 == c) <;> simp [hp]
    rw [heq, cell_map_keyfun (fun k w => if k == c then v else w)]
    have : (r.find? (fun p => p.1 == c)).isSome := by
      rw [List.find?_isSome]
      rcases List.any_eq_true.mp h with ⟨p, hp, hpc⟩
      exact ⟨p, hp, hpc⟩
    cases hf : r.find? (fun p => p.1 == c) with
    | none => rw [hf] at this; simp at this
    | some p => simp
  | false =>
    simp only [if_false, Bool.false_eq_true]
    have hnone : r.find? (fun p => p.1 == c) = none := by
      rw [List.find?_eq_none]
      intro p hp
      simp only [List.any_eq_false] at h
      exact h p hp
    unfold cell
    rw [List.find?_append, hnone]
    simp [List.find?_cons]

/-! ## Claim theorems: the query layer -/

/-- C7: when the store contains zero rows, `load_data` returns an empty
view with a null freshness watermark and raises no error. -/
theorem empty_store_resolution : load_data [] = ([], none) := rfl

/-- C1, evaluation at the failing input: for the store
`{(e1,t=1), (e1,t=3), (e2,t=2)}` the `load_data` query returns only the
rows whose `updated_at_utc` equals the global maximum — the single row
`(e1,t=3)` — so entity `e2` is absent from the snapshot, contradicting the
claimed per-entity result `{e1→3, e2→2}`. -/
theorem latest_per_entity_failing_input :
    load_data [⟨"e1", 1⟩, ⟨"e1", 3⟩, ⟨"e2", 2⟩] =
      ([⟨"e1", 3⟩], some 3) ∧
    "e2" ∉ (load_data [⟨"e1", 1⟩, ⟨"e1", 3⟩, ⟨"e2", 2⟩]).1.map
      FlightRow.icao24 := by
  decide

/-- C2, counterexample: with a cached snapshot `([e1@5], some 5)` populated
at `t=0`, a recompute at `t=61` whose store connection fails returns the
empty view `([], none)` — not the previously cached snapshot — because the
`except` branch of `load_data` returns `(pd.DataFrame(), None)`. -/
theorem stale_fallback_counterexample :
    (get_snapshot (some (([⟨"e1", 5⟩], some 5), 0)) 61 none).1 = ([], none) ∧
    (get_snapshot (some (([⟨"e1", 5⟩], some 5), 0)) 61 none).1 ≠
      ([⟨"e1", 5⟩], some 5) := by
  decide

/-- C2, amended: whenever a recompute is triggered (cache entry expired)
and the backing store is unreachable, `load_data` returns the empty view
with a null watermark alongside a diagnostic, regardless of the previously
cached value; no stale fallback occurs. -/
theorem recompute_failure_returns_empty (v : ViewT) (t0 now : Nat)
    (h : 60 ≤ now - t0) :
    (get_snapshot (some (v, t0)) now none).1 = ([], none) ∧
    (get_snapshot none now none).1 = ([], none) := by
  constructor
  · simp only [get_snapshot]
    rw [if_neg (by omega)]
    rfl
  · rfl

/-- Witness for `recompute_failure_returns_empty` at the concrete input
`v = ([e1@5], some 5)`, `t0 = 0`, `now = 61`. -/
theorem recompute_failure_returns_empty_witness :
    60 ≤ 61 - 0 ∧
    ((get_snapshot (some ((([⟨"e1", 5⟩], some 5) : ViewT), 0)) 61 none).1 =
        ([], none) ∧
      (get_snapshot none 61 none).1 = ([], none)) :=
  ⟨by decide, recompute_failure_returns_empty ([⟨"e1", 5⟩], some 5) 0 61 (by decide)⟩

/-- C6: the cache entry expires exactly 60 time-units after the moment it
was populated.  A call at `t=0` with an empty cache populates the cache
with the resolved view; a call at `t=30` returns the cached value without
touching the store (the connection argument is arbitrary, even absent) and
leaves the entry's population time at 0; a call at `t=61` triggers a
synchronous recompute via the resolver and replaces the entry. -/
theorem cache_ttl_scenario (s0 s1 : List FlightRow)
    (conn : Option (List FlightRow)) :
    get_snapshot none 0 (some s0) = (load_data s0, some (load_data s0, 0)) ∧
    get_snapshot (some (load_data s0, 0)) 30 conn =
      (load_data s0, some (load_data s0, 0)) ∧
    get_snapshot (some (load_data s0, 0)) 61 (some s1) =
      (load_data s1, some (load_data s1, 61)) := by
  refine ⟨rfl, ?_, ?_⟩
  · simp [get_snapshot, load_data_try]
  · simp [get_snapshot, load_data_try]

/-- C5: an ingestion run whose fetch fails (feed unreachable or malformed
payload, modelled by `fetchResult = none`) lands in the `except` block:
the store is unchanged and zero rows are written; the model performs the
fetch exactly once, so no retry occurs. -/
theorem fetch_failure_writes_nothing (token : Option String) (t : Nat)
    (store : List Row) :
    ingest none token t store = (store, 0) := rfl

/-- C8, evaluation: a NULL `origin_country` is stringified by
`astype(str)` to the literal string `"None"` before `fillna('Unknown')`
can see it, so the value reaching grouping is `"None"`, not the intended
explicit `"Unknown"` marker; a literal `"unknown"` value is passed through
unchanged.  (No null ever propagates: the result type of the cleanup is a
bare string.) -/
theorem origin_country_cleanup_eval :
    originCountryClean none = Val.str "None" ∧
    Val.str "None" ≠ Val.str "Unknown" ∧
    originCountryClean (some (Val.str "unknown")) = Val.str "unknown" := by
  decide

/-- C10: the table created by the ingestion script has seventeen columns,
none named `rn`, so the raw-data expander's `drop(columns=['rn'])` always
raises `KeyError` on any non-empty frame loaded from that schema; the
raw-data view can never render against it. -/
theorem raw_data_expander_always_errors (df : DF)
    (hc : df.cols = tableSchemaCols) (_hr : df.rows ≠ []) :
    dropColumns ["rn"] df = Except.error "KeyError" := by
  unfold dropColumns
  rw [hc]
  rw [if_neg (by decide)]

/-- Witness for `raw_data_expander_always_errors`: a one-row frame with
exactly the created table's columns. -/
theorem raw_data_expander_always_errors_witness :
    (DF.mk tableSchemaCols [tableSchemaCols.map (fun c => (c, none))]).cols
        = tableSchemaCols ∧
    (DF.mk tableSchemaCols [tableSchemaCols.map (fun c => (c, none))]).rows
        ≠ [] ∧
    dropColumns ["rn"]
        (DF.mk tableSchemaCols [tableSchemaCols.map (fun c => (c, none))]) =
      Except.error "KeyError" :=
  ⟨rfl, by decide,
    raw_data_expander_always_errors _ rfl (by decide)⟩

/-! ## Shared ingestion timestamp (C4) -/

theorem mem_rows_stripDF {df : DF} {r : Row} (h : r ∈ (stripDF df).rows) :
    ∃ r0 ∈ df.rows, r = r0 ∨ r = stripRow r0 := by
  unfold stripDF at h
  split at h
  · rcases List.mem_map.mp h with ⟨r0, h0, rfl⟩
    exact ⟨r0, h0, Or.inr rfl⟩
  · exact ⟨r, h, Or.inl rfl⟩

theorem mem_rows_castDF {df : DF} {r : Row} (h : r ∈ (castDF df).rows) :
    ∃ r0 ∈ df.rows, r = r0 ∨ r = castRow r0 := by
  unfold castDF at h
  split at h
  · rcases List.mem_map.mp h with ⟨r0, h0, rfl⟩
    exact ⟨r0, h0, Or.inr rfl⟩
  · exact ⟨r, h, Or.inl rfl⟩

theorem stampDF_cols_contains (t : Nat) (df : DF) :
    (stampDF t df).cols.contains "updated_at_utc" = true := by
  unfold stampDF
  cases h : df.cols.contains "updated_at_utc" with
  | true => simpa using h
  | false =>
    simp only [h, Bool.false_eq_true, if_false]
    rw [List.elem_iff]
    exact List.mem_append_right _ (by simp)

theorem selectDF_keep_contains (df : DF) (c : String)
    (hk : c ∈ columns_to_keep) (hc : df.cols.contains c = true) :
    (columns_to_keep.filter (fun x => df.cols.contains x)).contains c = true := by
  rw [List.elem_iff, List.mem_filter]
  exact ⟨hk, hc⟩

/-- C4: every row appended to the store by a run carries the single shared
`updated_at_utc` value `t` taken once after normalization: each row of the
prepared batch has `updated_at_utc = t`, and every row of the store after
an `ingest` run is either a pre-existing row or carries exactly that `t`. -/
theorem shared_ingestion_timestamp (t : Nat) :
    (∀ raw : DF, ∀ r ∈ (pipelineBatch raw t).rows,
      cell r "updated_at_utc" = some (Val.time t)) ∧
    (∀ (fetch : Option DF) (token : Option String) (store : List Row),
      ∀ r ∈ (ingest fetch token t store).1,
        r ∈ store ∨ cell r "updated_at_utc" = some (Val.time t)) := by
  have key : ∀ raw : DF, ∀ r ∈ (pipelineBatch raw t).rows,
      cell r "updated_at_utc" = some (Val.time t) := by
    intro raw r hr
    unfold pipelineBatch at hr
    rcases mem_rows_castDF hr with ⟨r1, h1, hc⟩
    rcases mem_rows_stripDF h1 with ⟨r2, h2, hs⟩
    simp only [selectDF, List.mem_map] at h2
    rcases h2 with ⟨r3, h3, rfl⟩
    simp only [stampDF, List.mem_map] at h3
    rcases h3 with ⟨r4, _h4, rfl⟩
    have hsel : cell (selectRow
        (columns_to_keep.filter (fun x =>
          (stampDF t (dropnaDF (renameDF raw))).cols.contains x))
        (setCell r4 "updated_at_utc" (some (Val.time t)))) "updated_at_utc" =
        some (Val.time t) := by
      rw [cell_selectRow]
      rw [selectDF_keep_contains _ _ (by decide) (stampDF_cols_contains t _)]
      simp [cell_setCell_self]
    rcases hs with rfl | rfl <;> rcases hc with rfl | rfl
    · exact hsel
    · rw [cell_castRow, if_neg (by decide)]
      exact hsel
    · rw [cell_stripRow, if_neg (by decide)]
      exact hsel
    · rw [cell_castRow, if_neg (by decide), cell_stripRow, if_neg (by decide)]
      exact hsel
  refine ⟨key, ?_⟩
  intro fetch token store r hr
  cases fetch with
  | none => exact Or.inl hr
  | some raw =>
    simp only [ingest] at hr
    split at hr
    · exact Or.inl hr
    · split at hr
      · exact Or.inl hr
      · cases token with
        | none => exact Or.inl hr
        | some tok =>
          rcases List.mem_append.mp hr with h | h
          · exact Or.inl h
          · exact Or.inr (key raw r h)

/-- Witness for `shared_ingestion_timestamp`: a one-row snapshot run at
`t = 7` through `ingest` against an empty store; the single appended row
carries `updated_at_utc = 7`. -/
theorem shared_ingestion_timestamp_witness :
    [("longitude", some (Val.num 2)), ("latitude", some (Val.num 1)),
        ("updated_at_utc", some (Val.time 7))] ∈
      (ingest (some (DF.mk ["latitude", "longitude"]
          [[("latitude", some (Val.num 1)),
            ("longitude", some (Val.num 2))]])) (some "tk") 7 []).1 ∧
    ([("longitude", some (Val.num 2)), ("latitude", some (Val.num 1)),
          ("updated_at_utc", some (Val.time 7))] ∈ ([] : List Row) ∨
      cell [("longitude", some (Val.num 2)), ("latitude", some (Val.num 1)),
          ("updated_at_utc", some (Val.time 7))] "updated_at_utc" =
        some (Val.time 7)) :=
  ⟨by decide,
    (shared_ingestion_timestamp 7).2
      (some (DF.mk ["latitude", "longitude"]
        [[("latitude", some (Val.num 1)), ("longitude", some (Val.num 2))]]))
      (some "tk") [] _ (by decide)⟩

/-! ## Drop invariant (C3) -/

theorem ren_eq_lat (k : String) : ren k = "latitude" ↔ k = "latitude" := by
  unfold ren
  split_ifs <;> subst_vars <;> first | rfl | decide

theorem ren_eq_lon (k : String) : ren k = "longitude" ↔ k = "longitude" := by
  unfold ren
  split_ifs <;> subst_vars <;> first | rfl | decide

theorem cell_renameRow (r : Row) (c : String)
    (hiff : ∀ k, ren k = c ↔ k = c) :
    cell (renameRow r) c = cell r c := by
  unfold renameRow cell
  rw [List.find?_map]
  have hfun : ((fun q : String × Option Val => q.1 == c) ∘
      (fun p : String × Option Val => (ren p.1, p.2))) =
      (fun p : String × Option Val => p.1 == c) := by
    funext p
    rw [Function.comp_apply]
    rw [Bool.eq_iff_iff]
    simp only [beq_iff_eq]
    exact hiff p.1
  rw [hfun]
  cases hf : r.find? (fun p => p.1 == c) <;> simp

theorem rowValid_renameRow (r : Row) :
    rowValid (renameRow r) = rowValid r := by
  unfold rowValid
  rw [cell_renameRow r "latitude" ren_eq_lat,
    cell_renameRow r "longitude" ren_eq_lon]

theorem rows_length_stripDF (df : DF) :
    (stripDF df).rows.length = df.rows.length := by
  unfold stripDF
  split <;> simp

theorem rows_dropna_rename (df : DF) :
    (dropnaDF (renameDF df)).rows = (df.rows.filter rowValid).map renameRow := by
  simp only [dropnaDF, renameDF]
  rw [List.filter_map]
  congr 1
  apply List.filter_congr
  intro r _
  rw [Function.comp_apply, rowValid_renameRow]

/-- C3: the Normalizer excludes exactly the rows missing latitude or
longitude.  The rows surviving the drop are exactly the (renamed) valid
rows of the raw snapshot — every row lacking either coordinate is dropped,
every row with both kept — and the Normalizer's output row count equals
the input count minus the number of invalid rows. -/
theorem drop_invariant (df : DF) :
    (dropnaDF (renameDF df)).rows = (df.rows.filter rowValid).map renameRow ∧
    (normalizeDF df).rows.length +
      (df.rows.filter (fun r => !(rowValid r))).length = df.rows.length := by
  refine ⟨rows_dropna_rename df, ?_⟩
  have h1 : (normalizeDF df).rows.length = (df.rows.filter rowValid).length := by
    unfold normalizeDF
    rw [rows_length_stripDF]
    simp only [selectDF, List.length_map]
    rw [rows_dropna_rename]
    simp
  rw [h1]
  exact (List.length_eq_length_filter_add rowValid).symm

/-! ## Idempotence of the Normalizer (C9) -/

theorem head?_dropWhile_false (p : Char → Bool) (l : List Char) {x : Char}
    (h : (l.dropWhile p).head? = some x) : p x = false := by
  have hw := List.head?_dropWhile_not p l
  rw [h] at hw
  exact hw

theorem dropWhile_eq_self_of_head (p : Char → Bool) (l : List Char)
    (h : ∀ x, l.head? = some x → p x = false) : l.dropWhile p = l := by
  cases l with
  | nil => rfl
  | cons a t =>
    have ha := h a rfl
    rw [List.dropWhile_cons_of_neg (by simp [ha])]

theorem getLast?_dropWhile (p : Char → Bool) (l : List Char)
    (h : l.dropWhile p ≠ []) : (l.dropWhile p).getLast? = l.getLast? := by
  induction l with
  | nil => simp at h
  | cons a t ih =>
    by_cases hp : p a
    · rw [List.dropWhile_cons_of_pos hp] at h ⊢
      have ht : t ≠ [] := by
        intro hh
        rw [hh] at h
        simp at h
      rw [ih h]
      cases t with
      | nil => exact absurd rfl ht
      | cons b t2 => rw [List.getLast?_cons_cons]
    · rw [List.dropWhile_cons_of_neg hp]

theorem stripChars_getLast?_false {l : List Char} {x : Char}
    (h : (stripChars l).getLast? = some x) : Char.isWhitespace x = false := by
  unfold stripChars at h
  rw [List.getLast?_reverse] at h
  exact head?_dropWhile_false _ _ h

theorem stripChars_head?_false {l : List Char} {x : Char}
    (h : (stripChars l).head? = some x) : Char.isWhitespace x = false := by
  unfold stripChars at h
  rw [List.head?_reverse] at h
  have hne : (l.dropWhile Char.isWhitespace).reverse.dropWhile
      Char.isWhitespace ≠ [] := by
    intro hh
    rw [hh] at h
    simp at h
  rw [getLast?_dropWhile _ _ hne, List.getLast?_reverse] at h
  exact head?_dropWhile_false _ _ h

theorem stripChars_idem (l : List Char) :
    stripChars (stripChars l) = stripChars l := by
  show (((stripChars l).dropWhile Char.isWhitespace).reverse.dropWhile
      Char.isWhitespace).reverse = stripChars l
  rw [dropWhile_eq_self_of_head _ _ (fun x hx => stripChars_head?_false hx)]
  rw [dropWhile_eq_self_of_head _ _ (fun x hx => by
    rw [List.head?_reverse] at hx
    exact stripChars_getLast?_false hx)]
  rw [List.reverse_reverse]

theorem pyStrip_idem (s : String) : pyStrip (pyStrip s) = pyStrip s := by
  unfold pyStrip
  exact congrArg String.mk (stripChars_idem s.data)

theorem stripCell_idem (x : Option Val) :
    stripCell (stripCell x) = stripCell x := by
  cases x with
  | none => rfl
  | some v =>
    cases v with
    | str s => simp [stripCell, pyStrip_idem]
    | num n => rfl
    | boolv b => rfl
    | time t => rfl

/-- A canonical DataFrame: its columns are a sub-selection of
`columns_to_keep` in canonical order, rows are well-formed, every row has
both coordinates, and callsigns are already stripped.  The Normalizer's
output always has this shape, and the Normalizer fixes it. -/
def Canon (df : DF) : Prop :=
  df.cols = columns_to_keep.filter (fun c => df.cols.contains c) ∧
  WF df ∧
  (∀ r ∈ df.rows, rowValid r = true) ∧
  (∀ r ∈ df.rows, stripRow r = r)

theorem ren_id_keep : ∀ c ∈ columns_to_keep, ren c = c := by decide

theorem mem_cols_of_canon {d : DF} (h : Canon d) :
    ∀ c ∈ d.cols, c ∈ columns_to_keep := by
  intro c hc
  rw [h.1] at hc
  exact (List.mem_filter.mp hc).1

theorem renameRow_eq_self (r : Row)
    (h : ∀ c ∈ r.map Prod.fst, ren c = c) : renameRow r = r := by
  unfold renameRow
  have : r.map (fun p => (ren p.1, p.2)) = r.map (fun p => p) := by
    apply List.map_congr_left
    intro p hp
    rw [h p.1 (List.mem_map_of_mem Prod.fst hp)]
  rw [this, List.map_id']

theorem renameDF_canon (d : DF) (h : Canon d) : renameDF d = d := by
  unfold renameDF
  have hcols : d.cols.map ren = d.cols := by
    have : d.cols.map ren = d.cols.map (fun c => c) := by
      apply List.map_congr_left
      intro c hc
      exact ren_id_keep c (mem_cols_of_canon h c hc)
    rw [this, List.map_id']
  have hrows : d.rows.map renameRow = d.rows := by
    have : d.rows.map renameRow = d.rows.map (fun r => r) := by
      apply List.map_congr_left
      intro r hr
      apply renameRow_eq_self
      intro c hc
      rw [h.2.1 r hr] at hc
      exact ren_id_keep c (mem_cols_of_canon h c hc)
    rw [this, List.map_id']
  rw [hcols, hrows]

theorem dropnaDF_canon (d : DF) (h : Canon d) : dropnaDF d = d := by
  unfold dropnaDF
  rw [List.filter_eq_self.mpr h.2.2.1]

theorem selectRow_self (r : Row) (h : (r.map Prod.fst).Nodup) :
    selectRow (r.map Prod.fst) r = r := by
  induction r with
  | nil => rfl
  | cons p r ih =>
    simp only [List.map_cons] at h ⊢
    rw [List.nodup_cons] at h
    unfold selectRow
    simp only [List.map_cons]
    have hhead : cell (p :: r) p.1 = p.2 := by
      rw [cell_cons]
      simp
    have htail : (r.map Prod.fst).map (fun c => (c, cell (p :: r) c)) =
        (r.map Prod.fst).map (fun c => (c, cell r c)) := by
      apply List.map_congr_left
      intro c hc
      have hne : ¬(p.1 == c) = true := by
        intro hb
        rw [beq_iff_eq] at hb
        rw [hb] at h
        exact h.1 hc
      rw [cell_cons, if_neg hne]
    rw [hhead, htail]
    have := ih h.2
    unfold selectRow at this
    rw [this]

theorem columns_to_keep_nodup : columns_to_keep.Nodup := by decide

theorem selectDF_canon (d : DF) (h : Canon d) : selectDF d = d := by
  unfold selectDF
  have hkeep : columns_to_keep.filter (fun c => d.cols.contains c) = d.cols :=
    h.1.symm
  rw [hkeep]
  have hnd : d.cols.Nodup := by
    rw [h.1]
    exact columns_to_keep_nodup.filter _
  have hrows : d.rows.map (selectRow d.cols) = d.rows := by
    have : d.rows.map (selectRow d.cols) = d.rows.map (fun r => r) := by
      apply List.map_congr_left
      intro r hr
      have hk : r.map Prod.fst = d.cols := h.2.1 r hr
      rw [← hk]
      exact selectRow_self r (hk ▸ hnd)
    rw [this, List.map_id']
  show DF.mk d.cols (d.rows.map (selectRow d.cols)) = d
  rw [hrows]

theorem stripDF_canon (d : DF) (h : Canon d) : stripDF d = d := by
  unfold stripDF
  split
  · have hrows : d.rows.map stripRow = d.rows := by
      have : d.rows.map stripRow = d.rows.map (fun r => r) := by
        apply List.map_congr_left
        intro r hr
        exact h.2.2.2 r hr
      rw [this, List.map_id']
    rw [hrows]
  · rfl

theorem normalizeDF_canon_fixed (d : DF) (h : Canon d) : normalizeDF d = d := by
  unfold normalizeDF
  rw [renameDF_canon d h, dropnaDF_canon d h, selectDF_canon d h,
    stripDF_canon d h]

theorem WF_renameDF {df : DF} (h : WF df) : WF (renameDF df) := by
  intro r hr
  rcases List.mem_map.mp hr with ⟨r0, h0, rfl⟩
  unfold renameRow
  rw [List.map_map]
  show r0.map (fun p => ren p.1) = (renameDF df).cols
  have : r0.map (fun p => ren p.1) = (r0.map Prod.fst).map ren := by
    rw [List.map_map]
    rfl
  rw [this, h r0 h0]
  rfl

theorem WF_dropnaDF {df : DF} (h : WF df) : WF (dropnaDF df) := by
  intro r hr
  exact h r (List.mem_of_mem_filter hr)

theorem selectRow_keys (keep : List String) (r : Row) :
    (selectRow keep r).map Prod.fst = keep := by
  unfold selectRow
  rw [List.map_map]
  exact List.map_id' keep

theorem stripRow_keys (r : Row) :
    (stripRow r).map Prod.fst = r.map Prod.fst := by
  unfold stripRow
  rw [List.map_map]
  apply List.map_congr_left
  intro p _
  by_cases h : p.1 = "callsign" <;> simp [h]

theorem rowValid_stripRow (r : Row) : rowValid (stripRow r) = rowValid r := by
  unfold rowValid
  rw [cell_stripRow, cell_stripRow, if_neg (by decide), if_neg (by decide)]

theorem stripRow_idem (r : Row) : stripRow (stripRow r) = stripRow r := by
  unfold stripRow
  rw [List.map_map]
  apply List.map_congr_left
  intro p _
  by_cases h : p.1 = "callsign" <;> simp [h, stripCell_idem]

theorem stripRow_eq_self_of_not_mem (r : Row)
    (h : "callsign" ∉ r.map Prod.fst) : stripRow r = r := by
  unfold stripRow
  have : r.map (fun p => if p.1 == "callsign" then (p.1, stripCell p.2) else p)
      = r.map (fun p => p) := by
    apply List.map_congr_left
    intro p hp
    have hne : ¬(p.1 == "callsign") = true := by
      intro hb
      rw [beq_iff_eq] at hb
      exact h (hb ▸ List.mem_map_of_mem Prod.fst hp)
    rw [if_neg hne]
  rw [this, List.map_id']

theorem cell_isSome_mem_keys {r : Row} {c : String}
    (h : (cell r c).isSome = true) : c ∈ r.map Prod.fst := by
  unfold cell at h
  cases hf : r.find? (fun p => p.1 == c) with
  | none => rw [hf] at h; simp at h
  | some p =>
    have hp : p.1 = c := by
      have := List.find?_some hf
      rwa [beq_iff_eq] at this
    exact hp ▸ List.mem_map_of_mem Prod.fst (List.mem_of_find?_eq_some hf)

theorem filter_contains_idem (cols : List String) :
    columns_to_keep.filter (fun c =>
      (columns_to_keep.filter (fun x => cols.contains x)).contains c) =
    columns_to_keep.filter (fun c => cols.contains c) := by
  apply List.filter_congr
  intro c hc
  rw [Bool.eq_iff_iff, List.elem_iff, List.elem_iff, List.mem_filter]
  constructor
  · rintro ⟨-, h⟩
    rwa [List.elem_iff] at h
  · intro h
    exact ⟨hc, by rwa [List.elem_iff]⟩

theorem rowValid_selectRow (keep : List String) (r : Row)
    (hlat : keep.contains "latitude" = true)
    (hlon : keep.contains "longitude" = true)
    (h : rowValid r = true) : rowValid (selectRow keep r) = true := by
  unfold rowValid at h ⊢
  rw [cell_selectRow, cell_selectRow, hlat, hlon]
  simpa using h

theorem canon_normalizeDF (df : DF) (h : WF df) : Canon (normalizeDF df) := by
  have h1 : WF (renameDF df) := WF_renameDF h
  have h2 : WF (dropnaDF (renameDF df)) := WF_dropnaDF h1
  have hv2 : ∀ r ∈ (dropnaDF (renameDF df)).rows, rowValid r = true := by
    intro r hr
    exact List.of_mem_filter hr
  set d2 := dropnaDF (renameDF df) with hd2
  set keep := columns_to_keep.filter (fun c => d2.cols.contains c) with hkeep
  have hsel_rows : (selectDF d2).rows = d2.rows.map (selectRow keep) := rfl
  have hsel_cols : (selectDF d2).cols = keep := rfl
  have hkl : ∀ r ∈ d2.rows, keep.contains "latitude" = true ∧
      keep.contains "longitude" = true := by
    intro r hr
    have hv := hv2 r hr
    unfold rowValid at hv
    rw [Bool.and_eq_true] at hv
    have hlat : "latitude" ∈ r.map Prod.fst := cell_isSome_mem_keys hv.1
    have hlon : "longitude" ∈ r.map Prod.fst := cell_isSome_mem_keys hv.2
    rw [h2 r hr] at hlat hlon
    constructor
    · rw [hkeep, List.elem_iff, List.mem_filter]
      exact ⟨by decide, by rwa [List.elem_iff]⟩
    · rw [hkeep, List.elem_iff, List.mem_filter]
      exact ⟨by decide, by rwa [List.elem_iff]⟩
  have h3 : WF (selectDF d2) := by
    intro r hr
    rw [hsel_rows] at hr
    rcases List.mem_map.mp hr with ⟨r0, _, rfl⟩
    rw [selectRow_keys, hsel_cols]
  have hv3 : ∀ r ∈ (selectDF d2).rows, rowValid r = true := by
    intro r hr
    rw [hsel_rows] at hr
    rcases List.mem_map.mp hr with ⟨r0, h0, rfl⟩
    exact rowValid_selectRow keep r0 (hkl r0 h0).1 (hkl r0 h0).2 (hv2 r0 h0)
  have hc3 : (selectDF d2).cols =
      columns_to_keep.filter (fun c => (selectDF d2).cols.contains c) := by
    rw [hsel_cols, hkeep]
    exact (filter_contains_idem d2.cols).symm
  -- now push everything through stripDF
  have hnorm : normalizeDF df = stripDF (selectDF d2) := rfl
  rw [hnorm]
  unfold stripDF
  by_cases hcs : (selectDF d2).cols.contains "callsign" = true
  · rw [if_pos hcs]
    refine ⟨?_, ?_, ?_, ?_⟩
    · exact hc3
    · intro r hr
      rcases List.mem_map.mp hr with ⟨r0, h0, rfl⟩
      rw [stripRow_keys]
      exact h3 r0 h0
    · intro r hr
      rcases List.mem_map.mp hr with ⟨r0, h0, rfl⟩
      rw [rowValid_stripRow]
      exact hv3 r0 h0
    · intro r hr
      rcases List.mem_map.mp hr with ⟨r0, _, rfl⟩
      exact stripRow_idem r0
  · rw [if_neg hcs]
    refine ⟨hc3, h3, hv3, ?_⟩
    intro r hr
    apply stripRow_eq_self_of_not_mem
    rw [h3 r hr]
    intro hmem
    rw [← List.elem_iff] at hmem
    exact hcs hmem

/-- C9: the Normalizer is a pure function of its input frame and is
idempotent: applying the transform (alias-table renaming, dropping rows
missing latitude or longitude, canonical column selection, callsign
whitespace trimming) twice to any well-formed raw record set yields
exactly the same canonical frame as applying it once. -/
theorem normalizer_idempotent (df : DF) (h : WF df) :
    normalizeDF (normalizeDF df) = normalizeDF df :=
  normalizeDF_canon_fixed _ (canon_normalizeDF df h)

/-- Witness for `normalizer_idempotent`: a concrete one-row raw snapshot
with an aliased column and a padded callsign. -/
theorem normalizer_idempotent_witness :
    WF (DF.mk ["latitude", "longitude", "callsign", "timestamp"]
      [[("latitude", some (Val.num 1)), ("longitude", some (Val.num 2)),
        ("callsign", some (Val.str " AB ")), ("timestamp", some (Val.time 3))]]) ∧
    normalizeDF (normalizeDF
      (DF.mk ["latitude", "longitude", "callsign", "timestamp"]
        [[("latitude", some (Val.num 1)), ("longitude", some (Val.num 2)),
          ("callsign", some (Val.str " AB ")), ("timestamp", some (Val.time 3))]])) =
    normalizeDF
      (DF.mk ["latitude", "longitude", "callsign", "timestamp"]
        [[("latitude", some (Val.num 1)), ("longitude", some (Val.num 2)),
          ("callsign", some (Val.str " AB ")), ("timestamp", some (Val.time 3))]]) :=
  ⟨by unfold WF; decide, normalizer_idempotent _ (by unfold WF; decide)⟩
